import Mathlib

/-!
Verification of the row-grouping / header-detection / manufacturer-inheritance
pipeline of the ai-component-extractor repository.

The JavaScript sources `src/services/DeterministicExtractor.js` and
`src/services/headerAwareExcelExtractor.js` are embedded shallowly:

* JS strings are Lean `String`s; the handful of regular expressions the code
  uses are modelled by dedicated scanners over `List Char` that reproduce the
  leftmost-match / greedy-backtracking behaviour of those concrete patterns;
* JS numbers that matter here are exact, so they are modelled by `ℚ`
  (`parseFloat`/`Number`/`parseInt` are partial: `Option`);
* nullable / falsy string fields (`null`, `undefined`, `''`) are collapsed to
  `""`, matching the truthiness (`||`) tests the code performs on them;
* the OpenAI call inside `aiInterpretComponent` is an external capability and
  is modelled by an oracle `resolver : String → AiOutcome` (throw, unparsable
  reply, or a parsed JSON object); the in-memory `aiCache` is an association
  list threaded through the computation; the `Promise.all` batch of a chunk
  performs all cache reads against the cache as it was when the chunk was
  dispatched (the synchronous prefixes of the async calls all run before any
  `await` resolves) and the writes land afterwards, which the chunk-processing
  function reproduces.
-/

/-! ### Characters and strings -/

/-- Lower-casing of the characters that occur in these documents
(`String.prototype.toLowerCase`). -/
def lowChar (c : Char) : Char :=
  if 'A' ≤ c ∧ c ≤ 'Z' then Char.ofNat (c.toNat + 32)
  else if c = 'Æ' then 'æ'
  else if c = 'Ø' then 'ø'
  else if c = 'Å' then 'å'
  else c

/-- Upper-casing (`String.prototype.toUpperCase`). -/
def upChar (c : Char) : Char :=
  if 'a' ≤ c ∧ c ≤ 'z' then Char.ofNat (c.toNat - 32)
  else if c = 'æ' then 'Æ'
  else if c = 'ø' then 'Ø'
  else if c = 'å' then 'Å'
  else c

def jsToLower (s : String) : String := ⟨s.data.map lowChar⟩

def jsToUpper (s : String) : String := ⟨s.data.map upChar⟩

/-- `String.prototype.trim`. -/
def jsTrim (s : String) : String :=
  ⟨((s.data.dropWhile Char.isWhitespace).reverse.dropWhile Char.isWhitespace).reverse⟩

/-- JS truthiness-based `a || b` on (nullable) strings. -/
def jsOr (a b : String) : String := if a = "" then b else a

/-- `a ?? b` on nullable numbers. -/
def qOr (a b : Option ℚ) : Option ℚ :=
  match a with
  | some q => some q
  | none => b

/-- `x || null` on a nullable number: `0` is falsy and becomes `null`. -/
def orZero (x : Option ℚ) : Option ℚ :=
  match x with
  | some q => if q = 0 then none else some q
  | none => none

/-- Does `pat` occur at the head of `txt`? -/
def startsWithL : List Char → List Char → Bool
  | [], _ => true
  | _ :: _, [] => false
  | p :: ps, c :: cs => p = c && startsWithL ps cs

/-- Substring occurrence test (`String.prototype.includes`). -/
def containsSub (pat : List Char) : List Char → Bool
  | [] => startsWithL pat []
  | c :: cs => startsWithL pat (c :: cs) || containsSub pat cs

/-- Drop `pat` from the head of `txt`, if it is there. -/
def dropPre : List Char → List Char → Option (List Char)
  | [], r => some r
  | _ :: _, [] => none
  | p :: ps, c :: cs => if c = p then dropPre ps cs else none

/-- Replace the first occurrence of character `a` by `b`
(`String.prototype.replace` with a one-character string pattern). -/
def replaceFirstChar (s : String) (a b : Char) : String :=
  ⟨go s.data⟩
where
  go : List Char → List Char
    | [] => []
    | c :: cs => if c = a then b :: cs else c :: go cs

/-! ### Numbers -/

def natOfDigits (cs : List Char) : Nat :=
  cs.foldl (fun n c => 10 * n + (c.toNat - 48)) 0

/-- Value of a regex capture of shape `\d+[.,]?\d*` (the decimal comma is
normalized to a dot before `parseFloat`/`Number` is applied, which does not
change the value the model assigns). -/
def numOfCap (cs : List Char) : ℚ :=
  let p := cs.span Char.isDigit
  match p.2 with
  | c :: r2 =>
    if c = '.' ∨ c = ',' then
      (natOfDigits p.1 : ℚ) + (natOfDigits (r2.takeWhile Char.isDigit) : ℚ) / (10 ^ (r2.takeWhile Char.isDigit).length : ℚ)
    else (natOfDigits p.1 : ℚ)
  | [] => (natOfDigits p.1 : ℚ)

/-- `parseFloat`: longest numeric prefix after optional whitespace and sign;
`none` models `NaN`.  (Exponent notation never occurs in this pipeline's
inputs and is not modelled.) -/
def jsParseFloat (s : String) : Option ℚ :=
  let cs := s.data.dropWhile Char.isWhitespace
  let signAndRest : Bool × List Char :=
    match cs with
    | '-' :: r => (true, r)
    | '+' :: r => (false, r)
    | r => (false, r)
  let d1 := signAndRest.2.takeWhile Char.isDigit
  let r1 := signAndRest.2.dropWhile Char.isDigit
  let d2 : List Char :=
    match r1 with
    | '.' :: r2 => r2.takeWhile Char.isDigit
    | _ => []
  if d1 = [] ∧ d2 = [] then none
  else
    let v : ℚ := (natOfDigits d1 : ℚ) + (natOfDigits d2 : ℚ) / (10 ^ d2.length : ℚ)
    some (if signAndRest.1 then -v else v)

/-- `parseInt` with radix 10; `none` models `NaN`. -/
def jsParseInt (s : String) : Option Int :=
  let cs := s.data.dropWhile Char.isWhitespace
  let signAndRest : Bool × List Char :=
    match cs with
    | '-' :: r => (true, r)
    | '+' :: r => (false, r)
    | r => (false, r)
  let d := signAndRest.2.takeWhile Char.isDigit
  if d = [] then none
  else some (if signAndRest.1 then -(natOfDigits d : Int) else (natOfDigits d : Int))

/-- `Number(x)` on a string: empty/whitespace-only is `0`, otherwise the whole
trimmed string must be numeric, else `NaN` (`none`). -/
def jsNumber (s : String) : Option ℚ :=
  let t := (jsTrim s).data
  if t = [] then some 0
  else
    let signAndRest : Bool × List Char :=
      match t with
      | '-' :: r => (true, r)
      | '+' :: r => (false, r)
      | r => (false, r)
    let d1 := signAndRest.2.takeWhile Char.isDigit
    let r1 := signAndRest.2.dropWhile Char.isDigit
    let frac : Option (List Char) :=
      match r1 with
      | [] => some []
      | '.' :: r2 => if r2.dropWhile Char.isDigit = [] then some (r2.takeWhile Char.isDigit) else none
      | _ => none
    match frac with
    | none => none
    | some d2 =>
      if d1 = [] ∧ d2 = [] then none
      else
        let v : ℚ := (natOfDigits d1 : ℚ) + (natOfDigits d2 : ℚ) / (10 ^ d2.length : ℚ)
        some (if signAndRest.1 then -v else v)

/-! ### Regex scanners

Each scanner models one concrete regular expression of the source. -/

/-- After the numeric capture: skip `sp`-characters, consume `unit`, then check
the negative lookahead `la` (the next character, if any, must differ). -/
def unitTail (sp : Char → Bool) (unit : List Char) (la : Option Char) (r : List Char) : Bool :=
  match dropPre unit (r.dropWhile sp) with
  | none => false
  | some rest =>
    match la with
    | none => true
    | some a =>
      match rest with
      | [] => true
      | c :: _ => !(c = a)

/-- Match `(\d+[.,]?\d*)\s*unit(?!la)` (or `(\d+)\s*unit(?!la)` when
`allowSep = false`) anchored at the head of `cs`; returns the capture.
The greedy attempt consumes a separator and the following digit run first and
falls back to the bare integer part, exactly as the backtracking engine
does. -/
def matchNumUnitAt (allowSep : Bool) (sp : Char → Bool) (unit : List Char) (la : Option Char)
    (cs : List Char) : Option (List Char) :=
  let d1 := cs.takeWhile Char.isDigit
  let r1 := cs.dropWhile Char.isDigit
  if d1 = [] then none
  else
    let sepCand : Option (List Char) :=
      if allowSep then
        match r1 with
        | c :: r2 =>
          if c = '.' ∨ c = ',' then
            if unitTail sp unit la (r2.dropWhile Char.isDigit) then
              some (d1 ++ c :: r2.takeWhile Char.isDigit)
            else none
          else none
        | [] => none
      else none
    match sepCand with
    | some cap => some cap
    | none => if unitTail sp unit la r1 then some d1 else none

/-- Leftmost match of the number-unit pattern in the text; returns the first
capture group (`String.prototype.match`, index 1). -/
def scanNumUnit (allowSep : Bool) (sp : Char → Bool) (unit : List Char) (la : Option Char) :
    List Char → Option (List Char)
  | [] => none
  | c :: cs =>
    match matchNumUnitAt allowSep sp unit la (c :: cs) with
    | some cap => some cap
    | none => scanNumUnit allowSep sp unit la cs

/-- The character class `[a-zæøå]` with the `i` flag. -/
def isWordLetter (c : Char) : Bool :=
  ('a' ≤ c && c ≤ 'z') || ('A' ≤ c && c ≤ 'Z') || c = 'æ' || c = 'ø' || c = 'å' ||
    c = 'Æ' || c = 'Ø' || c = 'Å'

/-- `/^\d+(\.\d+)?\s*[a-zæøå]/i` — a leading bare number followed by a word
character ("category description" rows such as `1.2 ploganker`). -/
def catDescTest (cs : List Char) : Bool :=
  let d1 := cs.takeWhile Char.isDigit
  let r1 := cs.dropWhile Char.isDigit
  if d1 = [] then false
  else
    let cont (r : List Char) : Bool :=
      match r.dropWhile Char.isWhitespace with
      | c :: _ => isWordLetter c
      | [] => false
    let fracBranch : Bool :=
      match r1 with
      | '.' :: r2 =>
        if r2.takeWhile Char.isDigit = [] then false
        else cont (r2.dropWhile Char.isDigit)
      | _ => false
    fracBranch || cont r1

/-- `/[A-Z]{2,}-?[A-Z0-9]+/` anchored at the head: with `u` the maximal run of
upper-case letters, the pattern matches iff `u ≥ 3`, or `u = 2` and the run is
followed by a digit, or by `-` and an upper-case letter or digit. -/
def trackingAt (cs : List Char) : Bool :=
  let u := cs.takeWhile Char.isUpper
  let r := cs.dropWhile Char.isUpper
  if 3 ≤ u.length then true
  else if u.length = 2 then
    match r with
    | c :: r2 =>
      if c.isDigit then true
      else if c = '-' then
        match r2 with
        | d :: _ => d.isUpper || d.isDigit
        | [] => false
      else false
    | [] => false
  else false

/-- `/[A-Z]{2,}-?[A-Z0-9]+/.test(id)` — unanchored. -/
def testTracking : List Char → Bool
  | [] => false
  | c :: cs => trackingAt (c :: cs) || testTracking cs

/-- `^\d{m,}$`. -/
def allDigitsMin (m : Nat) (cs : List Char) : Bool :=
  cs.all Char.isDigit && decide (m ≤ cs.length) && !cs.isEmpty

/-- `^\d{m,}-\d+$`. -/
def digitsDashDigits (m : Nat) (cs : List Char) : Bool :=
  let d1 := cs.takeWhile Char.isDigit
  match cs.dropWhile Char.isDigit with
  | '-' :: r2 =>
    decide (m ≤ d1.length) && !(r2.takeWhile Char.isDigit).isEmpty &&
      (r2.dropWhile Char.isDigit).isEmpty
  | _ => false

/-- `^[A-Z]{2,3}-[A-Z]{2,3}$`. -/
def upperDashUpper (cs : List Char) : Bool :=
  let u1 := cs.takeWhile Char.isUpper
  match cs.dropWhile Char.isUpper with
  | '-' :: r2 =>
    let u2 := r2.takeWhile Char.isUpper
    decide (2 ≤ u1.length) && decide (u1.length ≤ 3) &&
      decide (2 ≤ u2.length) && decide (u2.length ≤ 3) && (r2.dropWhile Char.isUpper).isEmpty
  | _ => false

/-- `^[A-Z]\d{1,4}$`. -/
def letterDigits14 (cs : List Char) : Bool :=
  match cs with
  | c :: rest =>
    c.isUpper && rest.all Char.isDigit && decide (1 ≤ rest.length) && decide (rest.length ≤ 4)
  | [] => false

/-- `^[A-Z]+\d+$`. -/
def lettersThenDigits (cs : List Char) : Bool :=
  let u := cs.takeWhile Char.isUpper
  let r := cs.dropWhile Char.isUpper
  !u.isEmpty && !r.isEmpty && r.all Char.isDigit

/-- `^\d+T$`. -/
def digitsThenT (cs : List Char) : Bool :=
  let d := cs.takeWhile Char.isDigit
  !d.isEmpty && cs.dropWhile Char.isDigit = ['T']

/-- `^\d+MIN$`. -/
def digitsThenMIN (cs : List Char) : Bool :=
  let d := cs.takeWhile Char.isDigit
  !d.isEmpty && cs.dropWhile Char.isDigit = ['M', 'I', 'N']

/-! ### DeterministicExtractor: deterministic field extraction -/

/-- The `knownManufacturers` list of `DeterministicExtractor.js`. -/
def knownManufacturers : List String :=
  ["AQS TOR", "Aqualine", "Aqua Supporter", "Scale AQ",
   "Mørenot", "Løvold", "FSV Group", "Frøy"]

/-- The `specs` object built by `prepareForAI` / `extractDeterministicFields`
(`null` = `none`). -/
structure Specs where
  diameter_mm : Option ℚ
  length_m : Option ℚ
  weight_kg : Option ℚ
  capacity_t : Option ℚ
  deriving DecidableEq, Repr

/-- Result record of `extractDeterministicFields`.  The nullable string fields
`tracking` and `partNumber` use `""` for `null`. -/
structure Determin where
  componentType : String
  diameter_mm : Option ℚ
  length_m : Option ℚ
  weight_kg : Option ℚ
  capacity_t : Option ℚ
  tracking : String
  partNumber : String
  manufacturer : String
  deriving DecidableEq, Repr

/-- The ordered `full.includes(...)` chain of lines 198-207: later matches
overwrite earlier ones. -/
def detType (full : List Char) : String :=
  let t := "unknown"
  let t := if containsSub "kjetting".data full then "chain" else t
  let t := if containsSub "kjede".data full then "chain" else t
  let t := if containsSub "sjakkel".data full || containsSub "sjakel".data full then "shackle" else t
  let t := if containsSub "anker".data full || containsSub "ploganker".data full then "anchor" else t
  let t := if containsSub "tau".data full || containsSub "trosse".data full || containsSub "rope".data full then "rope" else t
  let t := if containsSub "bøye".data full || containsSub "buoy".data full then "buoy" else t
  let t := if containsSub "swivel".data full || containsSub "svirvel".data full then "swivel" else t
  let t := if containsSub "plate".data full then "grid plate" else t
  let t := if containsSub "lodd".data full || containsSub "søkk".data full || containsSub "søkke".data full then "sinker" else t
  t

/-- `extractDeterministicFields(type, subtype, idRaw, manufacturerRaw)`
(DeterministicExtractor.js lines 192-228). -/
def extractDeterministicFields (type subtype idRaw manufacturerRaw : String) : Determin :=
  let full := (jsToLower (type ++ " " ++ subtype)).data
  let diameter := scanNumUnit false Char.isWhitespace ['m', 'm'] none full
  let length := scanNumUnit true Char.isWhitespace ['m'] (some 'm') full
  let weightKg := scanNumUnit true Char.isWhitespace ['k', 'g'] none full
  let capacityT := scanNumUnit true Char.isWhitespace ['t'] (some 'a') full
  let id := jsTrim idRaw
  let isTracking := testTracking id.data
  let isPartNumber := allDigitsMin 4 id.data || digitsDashDigits 4 id.data
  let manufacturer0 := jsTrim manufacturerRaw
  let manufacturer :=
    if (knownManufacturers.map jsToLower).contains (jsToLower manufacturer0)
    then jsToUpper manufacturer0 else manufacturer0
  { componentType := detType full
    diameter_mm := diameter.map (fun d => (natOfDigits d : ℚ))
    length_m := length.map numOfCap
    weight_kg := weightKg.map numOfCap
    capacity_t := capacityT.map numOfCap
    tracking := if isTracking then id else ""
    partNumber := if isTracking then "" else if isPartNumber then id else ""
    manufacturer := manufacturer }

/-! ### DeterministicExtractor: rows and the header filter -/

/-- Output of `normalizeRow`: the fixed semantic schema.  All fields are
strings with `""` for empty/missing. -/
structure NormalizedRow where
  posisjon : String
  rekkefolge : String
  type : String
  subtype : String
  id : String
  montor : String
  montert_dato : String
  antall : String
  deriving DecidableEq, Repr

def headerKeywords : List String :=
  ["type", "posisjon", "position", "antall", "quantity", "kommentar", "merknad",
   "fortøyningsline", "ploganker", "bunnfortøyning"]

def categoryWords : List String := ["kjetting", "sjakkel", "tau", "bøye", "anker", "line"]

/-- `isHeaderRowRow(row)` (DeterministicExtractor.js lines 147-164).  The four
`hasSpecs` regexes use a literal space (` *`), not `\s*`. -/
def isHeaderRowRow (row : NormalizedRow) : Bool :=
  let type := jsToLower (jsTrim row.type)
  let subtype := jsToLower (jsTrim row.subtype)
  let combined := jsTrim (type ++ " " ++ subtype)
  if combined = "" then true
  else if catDescTest combined.data then true
  else if headerKeywords.any (fun h => startsWithL h.data combined.data) then true
  else
    let sp : Char → Bool := fun c => c = ' '
    let hasSpecs :=
      (scanNumUnit false sp ['m', 'm'] none combined.data).isSome ||
      (scanNumUnit true sp ['m'] (some 'm') combined.data).isSome ||
      (scanNumUnit true sp ['k', 'g'] none combined.data).isSome ||
      (scanNumUnit true sp ['t'] (some 'a') combined.data).isSome
    let hasID := !(jsTrim row.id = "")
    let hasCount :=
      match jsNumber row.antall with
      | some q => decide (0 < q)
      | none => false
    if !hasSpecs && !hasID && !hasCount then true
    else if categoryWords.contains type && !hasSpecs && !hasID then true
    else false

/-! ### DeterministicExtractor: prepared components and the ambiguity resolver -/

/-- Output of `prepareForAI` (lines 166-190). -/
structure Prepared where
  rekkefolge : String
  antall : String
  rawType : String
  rawSub : String
  rawText : String
  manufacturer : String
  montert_dato : String
  tracking : String
  partNumber : String
  componentType : String
  specs : Specs
  deriving DecidableEq, Repr

def prepareForAI (row : NormalizedRow) : Prepared :=
  let rawType := row.type
  let rawSub := row.subtype
  let determin := extractDeterministicFields rawType rawSub row.id row.montor
  { rekkefolge := row.rekkefolge
    antall := if row.antall = "" then "1" else row.antall
    rawType := rawType
    rawSub := rawSub
    rawText := jsTrim (rawType ++ " " ++ rawSub)
    manufacturer := jsOr determin.manufacturer row.montor
    montert_dato := row.montert_dato
    tracking := determin.tracking
    partNumber := determin.partNumber
    componentType := determin.componentType
    specs := ⟨determin.diameter_mm, determin.length_m, determin.weight_kg, determin.capacity_t⟩ }

/-- A parsed JSON reply of the external model (`JSON.parse` succeeded). -/
structure AiParsed where
  componentType : String
  subtype : String
  cleanManufacturer : String
  partNumber : String
  tracking : String
  specs : Specs
  confidence : Option ℚ
  deriving DecidableEq, Repr

/-- One invocation of the external capability: it throws, or its text is not
parsable as JSON (both `JSON.parse` attempts fail), or it parses. -/
inductive AiOutcome where
  | throws
  | unparsable
  | parsed (p : AiParsed)
  deriving DecidableEq, Repr

/-- The value `aiInterpretComponent` resolves with (never `null`). -/
structure AiResult where
  componentType : String
  subtype : String
  cleanManufacturer : String
  partNumber : String
  tracking : String
  specs : Specs
  confidence : ℚ
  deriving DecidableEq, Repr

/-- The content key of line 278:
`rawText|manufacturer|tracking|partNumber`. -/
def aiKey (c : Prepared) : String :=
  c.rawText ++ "|" ++ c.manufacturer ++ "|" ++ c.tracking ++ "|" ++ c.partNumber

/-- The conservative fallback object (lines 312-325 / 347-360): deterministic
partial fields, confidence 0.5; `|| null` nulls a numeric 0. -/
def aiFallback (c : Prepared) : AiResult :=
  { componentType := jsOr c.componentType "ukjent"
    subtype := c.rawSub
    cleanManufacturer := c.manufacturer
    partNumber := c.partNumber
    tracking := c.tracking
    specs := ⟨orZero c.specs.diameter_mm, orZero c.specs.length_m,
              orZero c.specs.weight_kg, orZero c.specs.capacity_t⟩
    confidence := 1 / 2 }

/-- Merging a parsed reply with the deterministic fields (lines 329-342). -/
def aiMerge (p : AiParsed) (c : Prepared) : AiResult :=
  { componentType := jsOr p.componentType (jsOr c.componentType "ukjent")
    subtype := jsOr p.subtype c.rawSub
    cleanManufacturer := jsOr p.cleanManufacturer c.manufacturer
    partNumber := jsOr p.partNumber c.partNumber
    tracking := jsOr p.tracking c.tracking
    specs := ⟨qOr p.specs.diameter_mm c.specs.diameter_mm,
              qOr p.specs.length_m c.specs.length_m,
              qOr p.specs.weight_kg c.specs.weight_kg,
              qOr p.specs.capacity_t c.specs.capacity_t⟩
    confidence := (p.confidence).getD (9 / 10) }

/-- The value computed by a cache-missing `aiInterpretComponent` call. -/
def interpretOne (resolver : String → AiOutcome) (c : Prepared) : AiResult :=
  match resolver (aiKey c) with
  | .throws => aiFallback c
  | .unparsable => aiFallback c
  | .parsed p => aiMerge p c

/-- The instance-wide `aiCache` `Map`. -/
abbrev Cache := List (String × AiResult)

def lookupCache : Cache → String → Option AiResult
  | [], _ => none
  | e :: rest, k => if e.1 = k then some e.2 else lookupCache rest k

/-- `Map.set`: overwrite an existing key, else append. -/
def cacheSet : Cache → String → AiResult → Cache
  | [], k, v => [(k, v)]
  | e :: rest, k, v => if e.1 = k then (k, v) :: rest else e :: cacheSet rest k v

/-- The mutable element of `out` in `resolveComponentsWithAI`: a copy of the
prepared component plus the fields the merge at lines 256-271 may add.
`confidence = none` models the property being absent. -/
structure Resolved where
  rekkefolge : String
  antall : String
  rawType : String
  rawSub : String
  rawText : String
  manufacturer : String
  montert_dato : String
  tracking : String
  partNumber : String
  componentType : String
  specs : Specs
  subtype : String
  cleanManufacturer : String
  confidence : Option ℚ
  deriving DecidableEq, Repr

/-- `Object.assign({}, c)` at line 232. -/
def toResolved (c : Prepared) : Resolved :=
  { rekkefolge := c.rekkefolge
    antall := c.antall
    rawType := c.rawType
    rawSub := c.rawSub
    rawText := c.rawText
    manufacturer := c.manufacturer
    montert_dato := c.montert_dato
    tracking := c.tracking
    partNumber := c.partNumber
    componentType := c.componentType
    specs := c.specs
    subtype := ""
    cleanManufacturer := ""
    confidence := none }

/-- The write-back of a resolver answer into `out[idx]` (lines 256-268; the
`else` branch at line 270 is unreachable because `aiInterpretComponent`
always resolves with an object). -/
def applyRes (r : Resolved) (res : AiResult) : Resolved :=
  { r with
    componentType := jsOr res.componentType r.componentType
    subtype := jsOr res.subtype r.subtype
    cleanManufacturer := jsOr res.cleanManufacturer (jsOr r.manufacturer "")
    partNumber := jsOr res.partNumber (jsOr r.partNumber "")
    tracking := jsOr res.tracking (jsOr r.tracking "")
    specs := ⟨qOr res.specs.diameter_mm r.specs.diameter_mm,
              qOr res.specs.length_m r.specs.length_m,
              qOr res.specs.weight_kg r.specs.weight_kg,
              qOr res.specs.capacity_t r.specs.capacity_t⟩
    confidence := some res.confidence }

/-- The ambiguity test of lines 235-239. -/
def needsAi (c : Prepared) : Bool :=
  (c.componentType = "" || c.componentType = "unknown") ||
  c.manufacturer = "" ||
  (c.tracking = "" && c.partNumber = "" && !(c.rawType = "" && c.rawSub = "")) ||
  (c.specs.diameter_mm.isNone && c.specs.length_m.isNone &&
   c.specs.weight_kg.isNone && c.specs.capacity_t.isNone)

/-- Index the list, starting at `n`. -/
def enumFrom {α : Type} : Nat → List α → List (Nat × α)
  | _, [] => []
  | n, a :: as => (n, a) :: enumFrom (n + 1) as

/-- `this.aiConcurrency` batches of at most 10 (lines 246-249). -/
def chunkList {α : Type} : List (Nat × α) → List (List (Nat × α))
  | [] => []
  | a1 :: a2 :: a3 :: a4 :: a5 :: a6 :: a7 :: a8 :: a9 :: a10 :: rest =>
    [a1, a2, a3, a4, a5, a6, a7, a8, a9, a10] :: chunkList rest
  | l => [l]

/-- One read of a batch: its target index, the answer used for it, whether it
was a cache miss (an external call), and the dispatched payload. -/
structure ChunkRead where
  idx : Nat
  res : AiResult
  miss : Bool
  payload : Prepared
  deriving DecidableEq, Repr

/-- Dispatching one `Promise.all` batch: every call checks the cache as it
stood when the batch was dispatched; every miss performs one external call and
stores its answer afterwards. -/
def processChunk (resolver : String → AiOutcome) (cache : Cache) (chunk : List (Nat × Prepared)) :
    List ChunkRead :=
  chunk.map (fun ic =>
    match lookupCache cache (aiKey ic.2) with
    | some r => ⟨ic.1, r, false, ic.2⟩
    | none => ⟨ic.1, interpretOne resolver ic.2, true, ic.2⟩)

def chunkCache (cache : Cache) (reads : List ChunkRead) : Cache :=
  reads.foldl (fun cc x => if x.miss then cacheSet cc (aiKey x.payload) x.res else cc) cache

def chunkCalls (reads : List ChunkRead) : Nat :=
  (reads.filter (fun x => x.miss)).length

/-- Overwrite position `i` of `out` with the merged record (a no-op when `i`
is out of range). -/
def updAt : List Resolved → Nat → AiResult → List Resolved
  | [], _, _ => []
  | r :: rest, 0, res => applyRes r res :: rest
  | r :: rest, Nat.succ n, res => r :: updAt rest n res

/-- The sequential loop over batches (lines 250-273), threading the cache and
the call counter. -/
def runChunks (resolver : String → AiOutcome) :
    List (List (Nat × Prepared)) → List Resolved × Cache × Nat → List Resolved × Cache × Nat
  | [], st => st
  | chunk :: rest, st =>
    let reads := processChunk resolver st.2.1 chunk
    runChunks resolver rest
      (reads.foldl (fun o x => updAt o x.idx x.res) st.1,
       chunkCache st.2.1 reads,
       st.2.2 + chunkCalls reads)

/-- `resolveComponentsWithAI(preparedComponents)` (lines 230-275); also returns
the cache and the number of external calls made. -/
def resolveComponentsWithAI (resolver : String → AiOutcome) (cache : Cache) (ps : List Prepared) :
    List Resolved × Cache × Nat :=
  let out := ps.map toResolved
  let needs := (enumFrom 0 ps).filter (fun ic => needsAi ic.2)
  if needs.isEmpty then
    (out.map (fun o => { o with confidence := some 1 }), cache, 0)
  else
    runChunks resolver (chunkList needs) (out, cache, 0)

/-! ### DeterministicExtractor: grouping -/

/-- The `spesifikasjoner` object of a processed component (line 123). -/
structure SpecsOut where
  vekt_kg : Option ℚ
  lengde_m : Option ℚ
  diameter_mm : Option ℚ
  kapasitet_t : Option ℚ
  deriving DecidableEq, Repr

/-- A processed component (lines 117-134).  `mengde` is the raw quantity value
(`c.antall || 1`), kept as its string form. -/
structure Komponent where
  sekvens : Int
  type : String
  type_original : String
  beskrivelse : String
  mengde : String
  spesifikasjoner : SpecsOut
  leverandor : String
  sporingsnummer : String
  part_number : String
  montert_dato : String
  confidence : ℚ
  deriving DecidableEq, Repr

def toKomponent (c : Resolved) : Komponent :=
  { sekvens := (jsParseInt c.rekkefolge).getD 0
    type := jsOr c.componentType "ukjent"
    type_original := c.rawType
    beskrivelse := c.rawText
    mengde := jsOr c.antall "1"
    spesifikasjoner := ⟨c.specs.weight_kg, c.specs.length_m, c.specs.diameter_mm, c.specs.capacity_t⟩
    leverandor := jsOr c.cleanManufacturer (jsOr c.manufacturer "")
    sporingsnummer := c.tracking
    part_number := c.partNumber
    montert_dato := c.montert_dato
    confidence :=
      match c.confidence with
      | none => 1
      | some q => if q = 0 then 1 else q }

/-- `classifyPositionType(position)` (lines 448-457). -/
def classifyPositionType (position : String) : String :=
  let firstTwo := fun (c : Char) (chars : List Char) =>
    match chars with
    | a :: b :: _ => (lowChar a = c) && b.isDigit
    | _ => false
  let cs := position.data
  if firstTwo 'h' cs then "fortøyningslinje"
  else if firstTwo 'k' cs then "koblingspunkt"
  else if firstTwo 's' cs then "sideline"
  else if firstTwo 'r' cs then "ramme"
  else if firstTwo 'a' cs then "ankerpunkt"
  else if firstTwo 'b' cs then "bøye"
  else if containsSub "bur".data (jsToLower position).data then "bur"
  else "ukjent"

structure PositionGroup where
  dokument_referanse : String
  posisjon_type : String
  sheet_kilde : String
  komponenter : List Komponent
  deriving DecidableEq, Repr

/-- The sort key of lines 111-112:
`parseFloat(rekkefolge.replace(',', '.')) || 999` — `NaN` and `0` both fall
back to the sentinel 999. -/
def seqKeyD (s : String) : ℚ :=
  match jsParseFloat (replaceFirstChar s ',' '.') with
  | none => 999
  | some q => if q = 0 then 999 else q

def rSeq (a b : NormalizedRow) : Prop := seqKeyD a.rekkefolge ≤ seqKeyD b.rekkefolge

instance : DecidableRel rSeq := fun x y => inferInstanceAs (Decidable (seqKeyD x.rekkefolge ≤ seqKeyD y.rekkefolge))

instance : IsTotal NormalizedRow rSeq := ⟨fun x y => le_total (seqKeyD x.rekkefolge) (seqKeyD y.rekkefolge)⟩

instance : IsTrans NormalizedRow rSeq := ⟨fun _ _ _ h1 h2 => le_trans h1 h2⟩

/-- The in-place `components.sort(...)` of lines 110-114.  A JS sort with a
consistent comparator is the stable sort by that comparator, which insertion
sort implements. -/
def sortRowsD (rows : List NormalizedRow) : List NormalizedRow :=
  List.insertionSort rSeq rows

/-- Accumulation into `grouped[position]` (lines 100-107), keeping first-seen
key order as a JS object does for non-integer-like keys. -/
def addToGroup : List (String × List NormalizedRow) → String → NormalizedRow →
    List (String × List NormalizedRow)
  | [], p, r => [(p, [r])]
  | (q, rs) :: rest, p, r =>
    if q = p then (q, rs ++ [r]) :: rest else (q, rs) :: addToGroup rest p r

def groupRows (rows : List NormalizedRow) : List (String × List NormalizedRow) :=
  rows.foldl
    (fun acc row =>
      let position := jsTrim row.posisjon
      if position = "" then acc
      else if isHeaderRowRow row then acc
      else addToGroup acc position row)
    []

/-- `groupAndProcessRows(rows, sheetName)` (lines 99-145), with the external
capability `resolver` and the instance cache made explicit; returns the
position groups, the final cache and the number of external calls. -/
def groupAndProcessRows (resolver : String → AiOutcome) (cache : Cache)
    (rows : List NormalizedRow) (sheetName : String) :
    List PositionGroup × Cache × Nat :=
  (groupRows rows).foldl
    (fun st pg =>
      let sorted := sortRowsD pg.2
      let prepared := sorted.map prepareForAI
      let r := resolveComponentsWithAI resolver st.2.1 prepared
      let processed := r.1.map toKomponent
      (if processed.isEmpty then st.1
       else st.1 ++ [{ dokument_referanse := pg.1
                       posisjon_type := classifyPositionType pg.1
                       sheet_kilde := sheetName
                       komponenter := processed }],
       r.2.1, st.2.2 + r.2.2))
    ([], cache, 0)

/-! ### DeterministicExtractor: standalone specification extraction and
identifier classification helpers -/

/-- `extractSpecifications(description)` (DeterministicExtractor.js lines
432-446).  Its capacity regex `(\d+[.,]?\d*)\s*t` has no lookahead. -/
def extractSpecifications (description : String) : SpecsOut :=
  if description = "" then ⟨none, none, none, none⟩
  else
    let text := (jsToLower description).data
    { vekt_kg := (scanNumUnit true Char.isWhitespace ['k', 'g'] none text).map numOfCap
      lengde_m := (scanNumUnit true Char.isWhitespace ['m'] (some 'm') text).map numOfCap
      diameter_mm := (scanNumUnit false Char.isWhitespace ['m', 'm'] none text).map
        (fun d => (natOfDigits d : ℚ))
      kapasitet_t := (scanNumUnit true Char.isWhitespace ['t'] none text).map numOfCap }

/-- Result of identifier classification: `partNumber` and `tracking`, with
`""` for `null`. -/
structure IdResult where
  partNumber : String
  tracking : String
  deriving DecidableEq, Repr

/-- `classifyIdWithAI(id, description)` (lines 405-430).  The external model's
reply text is the oracle `aiResp` (`none` models a thrown call). -/
def classifyIdWithAI (aiResp : String → Option String) (id : String) : IdResult :=
  match aiResp id with
  | none => ⟨"", id⟩
  | some resp =>
    let cl := jsTrim (jsToLower resp)
    if containsSub "part".data cl.data then ⟨id, ""⟩
    else if containsSub "tracking".data cl.data then ⟨"", id⟩
    else ⟨"", id⟩

/-- `classifyIdentifiers(idString, description)` (lines 390-403). -/
def classifyIdentifiers (aiResp : String → Option String) (idString : String) : IdResult :=
  if jsTrim idString = "" then ⟨"", ""⟩
  else
    let id := jsTrim idString
    let cs := id.data
    if allDigitsMin 5 cs then ⟨id, ""⟩
    else if digitsDashDigits 5 cs then ⟨id, ""⟩
    else if upperDashUpper cs then ⟨"", id⟩
    else if letterDigits14 cs then ⟨"", id⟩
    else if lettersThenDigits cs && decide (cs.length ≤ 6) then ⟨"", id⟩
    else if digitsThenT cs || digitsThenMIN cs then ⟨"", ""⟩
    else if digitsDashDigits 6 cs then ⟨id, ""⟩
    else if allDigitsMin 6 cs then ⟨id, ""⟩
    else if decide (5 < cs.length) && decide (cs.length < 20) then classifyIdWithAI aiResp id
    else ⟨"", id⟩

/-! ### HeaderAwareExcelExtractor: components and manufacturer inheritance -/

/-- The partial `specs` object of `headerAwareExcelExtractor.extractSpecifications`. -/
structure HSpecs where
  vekt_kg : Option ℚ
  lengde_m : Option ℚ
  diameter_mm : Option ℚ
  kapasitet_t : Option ℚ
  antall_hull : Option Int
  deriving DecidableEq, Repr

/-- A component as built by `extractComponentFromRow`
(headerAwareExcelExtractor.js lines 203-215), plus the
`leverandor_inherited` marker that `enrichWithManufacturers` may add.
`sekvens = none` models `null`; `leverandor`, `sporingsnummer` and
`montert_dato` use `""` for `null`. -/
structure HComp where
  posisjon : String
  sekvens : Option Int
  type : String
  type_original : String
  beskrivelse : String
  mengde : ℚ
  spesifikasjoner : HSpecs
  leverandor : String
  sporingsnummer : String
  montert_dato : String
  confidence : ℚ
  leverandor_inherited : Bool
  deriving DecidableEq, Repr

/-- The comparator key of line 257: `(a.sekvens || 999)` — `null` and `0` are
both falsy and fall back to 999. -/
def hKey (c : HComp) : Int :=
  match c.sekvens with
  | none => 999
  | some n => if n = 0 then 999 else n

def rH (a b : HComp) : Prop := hKey a ≤ hKey b

instance : DecidableRel rH := fun x y => inferInstanceAs (Decidable (hKey x ≤ hKey y))

instance : IsTotal HComp rH := ⟨fun x y => le_total (hKey x) (hKey y)⟩

instance : IsTrans HComp rH := ⟨fun _ _ _ h1 h2 => le_trans h1 h2⟩

/-- `komponenter.sort((a, b) => (a.sekvens || 999) - (b.sekvens || 999))`
(line 257), as the stable sort by the key. -/
def sortH (ks : List HComp) : List HComp := List.insertionSort rH ks

/-- The body of `enrichWithManufacturers` for one position group
(headerAwareExcelExtractor.js lines 250-274): sort by sequence, then — only
when the *first* component names a manufacturer — copy that value into every
later component whose manufacturer is empty, marking it inherited. -/
def enrichGroup (ks : List HComp) : List HComp :=
  match sortH ks with
  | [] => []
  | first :: rest =>
    if first.leverandor ≠ "" then
      first :: rest.map (fun k =>
        if k.leverandor = "" then
          { k with leverandor := first.leverandor, leverandor_inherited := true }
        else k)
    else first :: rest

/-! ### Concrete fixtures used by the claims -/

/-- An external resolver whose every call throws. -/
def failResolver : String → AiOutcome := fun _ => AiOutcome.throws

/-- Normalized forms of the end-to-end scenario rows
`["H01A",1,"Ploganker","Softanker 1700 kg","","606616","AQS TOR","12T"]` and
`["H01A",2,"Sjakkel","Sjakkel 90T","","GAP-GBA","",""]`: position, sequence,
type, description, identifier and manufacturer columns; the `"12T"` cell has
no synonym in `normalizeRow`'s schema (which carries a single identifier
field) and is dropped by the normalizer. -/
def c2row1 : NormalizedRow :=
  ⟨"H01A", "1", "Ploganker", "Softanker 1700 kg", "606616", "AQS TOR", "", ""⟩

def c2row2 : NormalizedRow :=
  ⟨"H01A", "2", "Sjakkel", "Sjakkel 90T", "GAP-GBA", "", "", ""⟩

/-- A row carrying only a position and a sequence besides the given type. -/
def mkRow (t sq : String) : NormalizedRow := ⟨"H01", sq, t, "", "", "", "", ""⟩

/-- A minimal header-aware component with the given sequence and manufacturer. -/
def mkH (n : Option Int) (lev : String) : HComp :=
  ⟨"P1", n, "t", "t", "", 1, ⟨none, none, none, none, none⟩, lev, "", "", 1, false⟩

/-- A prepared component of unknown type (hence needing resolution) whose raw
text is `t`. -/
def ambComp (t : String) : Prepared :=
  ⟨"", "1", t, "", t, "", "", "", "", "unknown", ⟨none, none, none, none⟩⟩

/-! ### C4 -/

/-- C4: the header filter classifies the row with type
`"Fortøyningsline type 1.2"`, empty identifier and quantity 0 as a header
(via the structural keyword `fortøyningsline`), and the row with type
`"Sjakkel"` and description `"Sjakkel 90T"` as not a header — its combined
text carries the capacity token `90T`, so neither the "no measurable fact"
rule nor the category-word rule fires. -/
theorem c4_header_filter :
    isHeaderRowRow ⟨"H01", "", "Fortøyningsline type 1.2", "", "", "", "", "0"⟩ = true ∧
    isHeaderRowRow ⟨"H01", "", "Sjakkel", "Sjakkel 90T", "", "", "", ""⟩ = false := by
  decide

/-! ### C6 -/

unseal Rat.add Rat.mul Rat.inv Rat.sub Rat.ofScientific in
/-- C6: specification extraction over a free-text description yields weight,
length (`m` not followed by `m`), diameter and capacity independently, commas
normalized to dots: `"Softanker 1700 kg"` gives exactly `weightKg = 1700`, and
`"Kjetting 30mm - 27,5m"` gives exactly `diameterMm = 30` and
`lengthM = 27.5`; the deterministic field extractor agrees on both inputs. -/
theorem c6_spec_extraction :
    extractSpecifications "Softanker 1700 kg" = ⟨some 1700, none, none, none⟩ ∧
    extractSpecifications "Kjetting 30mm - 27,5m" = ⟨none, some (55 / 2), some 30, none⟩ ∧
    ((extractDeterministicFields "" "Softanker 1700 kg" "" "").weight_kg = some 1700 ∧
      (extractDeterministicFields "" "Softanker 1700 kg" "" "").length_m = none ∧
      (extractDeterministicFields "" "Softanker 1700 kg" "" "").diameter_mm = none ∧
      (extractDeterministicFields "" "Softanker 1700 kg" "" "").capacity_t = none) ∧
    ((extractDeterministicFields "" "Kjetting 30mm - 27,5m" "" "").diameter_mm = some 30 ∧
      (extractDeterministicFields "" "Kjetting 30mm - 27,5m" "" "").length_m = some (55 / 2) ∧
      (extractDeterministicFields "" "Kjetting 30mm - 27,5m" "" "").weight_kg = none ∧
      (extractDeterministicFields "" "Kjetting 30mm - 27,5m" "" "").capacity_t = none) := by
  decide

/-! ### C5 -/

/-- C5 counterexample: the claim's examples and its general rule cannot both
hold on this code.  The pipeline's identifier classification
(`extractDeterministicFields`) sends `"G1463"` to *neither* field — its
tracking pattern `[A-Z]{2,}-?[A-Z0-9]+` needs two consecutive upper-case
letters — while the claim demands `trackingNumber`; and `classifyIdentifiers`
sends the `^\d{4,}$` token `"1234"` to `trackingNumber` — its all-digits
part-number rule starts at five digits — while the claim's general rule
demands `partNumber`. -/
theorem c5_identifier_counterexample :
    ((extractDeterministicFields "" "" "G1463" "").tracking = "" ∧
      (extractDeterministicFields "" "" "G1463" "").partNumber = "") ∧
    classifyIdentifiers (fun _ => none) "1234" = ⟨"", "1234"⟩ := by
  decide

/-- `classifyIdWithAI` never sets both fields, whatever the model replies. -/
theorem classifyIdWithAI_oneSided (ai : String → Option String) (id : String) :
    (classifyIdWithAI ai id).partNumber = "" ∨ (classifyIdWithAI ai id).tracking = "" := by
  unfold classifyIdWithAI
  cases hai : ai id with
  | none => exact Or.inl rfl
  | some resp =>
    dsimp only
    split_ifs <;> first | exact Or.inl rfl | exact Or.inr rfl

/-- C5 amended: `"606616"` is a partNumber and `"GAP-GBA"` a trackingNumber in
both classifiers, and `"12T"` is neither in both; but `"G1463"` is a
trackingNumber only in `classifyIdentifiers`, while the pipeline's
`extractDeterministicFields` gives it neither field (its tracking pattern
needs two consecutive upper-case letters); the all-digits part-number
threshold is four digits in `extractDeterministicFields` and five in
`classifyIdentifiers`; and no input ever gets both fields set, in either
classifier and for every resolver reply. -/
theorem c5_identifier_amended :
    ((extractDeterministicFields "" "" "606616" "").partNumber = "606616" ∧
      (extractDeterministicFields "" "" "606616" "").tracking = "" ∧
      (extractDeterministicFields "" "" "GAP-GBA" "").tracking = "GAP-GBA" ∧
      (extractDeterministicFields "" "" "GAP-GBA" "").partNumber = "" ∧
      (extractDeterministicFields "" "" "12T" "").tracking = "" ∧
      (extractDeterministicFields "" "" "12T" "").partNumber = "" ∧
      (extractDeterministicFields "" "" "G1463" "").tracking = "" ∧
      (extractDeterministicFields "" "" "G1463" "").partNumber = "" ∧
      (extractDeterministicFields "" "" "1234" "").partNumber = "1234") ∧
    (∀ ai : String → Option String,
      classifyIdentifiers ai "606616" = ⟨"606616", ""⟩ ∧
      classifyIdentifiers ai "GAP-GBA" = ⟨"", "GAP-GBA"⟩ ∧
      classifyIdentifiers ai "G1463" = ⟨"", "G1463"⟩ ∧
      classifyIdentifiers ai "12T" = ⟨"", ""⟩) ∧
    (∀ type subtype idRaw m : String,
      (extractDeterministicFields type subtype idRaw m).tracking = "" ∨
      (extractDeterministicFields type subtype idRaw m).partNumber = "") ∧
    (∀ (ai : String → Option String) (id : String),
      (classifyIdentifiers ai id).partNumber = "" ∨ (classifyIdentifiers ai id).tracking = "") := by
  refine ⟨by decide, fun ai => ⟨rfl, rfl, rfl, rfl⟩, ?_, ?_⟩
  · intro type subtype idRaw m
    unfold extractDeterministicFields
    dsimp only
    split
    · exact Or.inr rfl
    · exact Or.inl rfl
  · intro ai id
    unfold classifyIdentifiers
    split
    · exact Or.inl rfl
    · dsimp only
      repeat' split
      all_goals first
        | exact Or.inl rfl
        | exact Or.inr rfl
        | exact classifyIdWithAI_oneSided ai _

/-! ### C2 -/

unseal Rat.add Rat.mul Rat.inv Rat.sub Rat.ofScientific in
/-- C2 counterexample: on the two scenario rows the grouping pipeline of
`DeterministicExtractor` produces one PositionGroup `"H01A"` with exactly ONE
component, not two — `isHeaderRowRow` discards the first row because its
combined text `"ploganker softanker 1700 kg"` starts with the structural
keyword `ploganker` (line 153), so no anchor component is ever built. -/
theorem c2_end_to_end_counterexample :
    (groupAndProcessRows failResolver [] [c2row1, c2row2] "Sheet1").1.map
      (fun g => (g.dokument_referanse, g.komponenter.length)) = [("H01A", 1)] ∧
    isHeaderRowRow c2row1 = true := by
  decide

unseal Rat.add Rat.mul Rat.inv Rat.sub Rat.ofScientific in
/-- C2 amended: with a resolver whose call fails, the two scenario rows yield
exactly one PositionGroup `"H01A"` holding only the shackle row: sequence 2,
componentType `shackle`, capacityT 90, trackingNumber `"GAP-GBA"`, partNumber
null and manufacturer empty (the `DeterministicExtractor` pipeline performs no
manufacturer inheritance; the resolver is invoked once for the shackle's
missing manufacturer and its failure leaves confidence 0.5).  The `"12T"`
cell of the first row has no field in the normalized schema, and the first
row itself is dropped as a header. -/
theorem c2_end_to_end_amended :
    groupAndProcessRows failResolver [] [c2row1, c2row2] "Sheet1" =
      ([{ dokument_referanse := "H01A"
          posisjon_type := "fortøyningslinje"
          sheet_kilde := "Sheet1"
          komponenter := [{ sekvens := 2
                            type := "shackle"
                            type_original := "Sjakkel"
                            beskrivelse := "Sjakkel Sjakkel 90T"
                            mengde := "1"
                            spesifikasjoner := ⟨none, none, none, some 90⟩
                            leverandor := ""
                            sporingsnummer := "GAP-GBA"
                            part_number := ""
                            montert_dato := ""
                            confidence := 1 / 2 }] }],
       [(aiKey (prepareForAI c2row2), aiFallback (prepareForAI c2row2))], 1) := by
  decide

/-! ### C7 -/

unseal Rat.add Rat.mul Rat.inv Rat.sub Rat.ofScientific in
/-- C7 counterexample: two prepared components with the identical resolution
key, both needing resolution, are dispatched in the same `Promise.all` batch;
each checks the (still empty) cache before either write lands, so the
external resolver is called twice, not once. -/
theorem c7_cache_counterexample :
    (resolveComponentsWithAI failResolver [] [ambComp "X", ambComp "X"]).2.2 = 2 := by
  decide

unseal Rat.add Rat.mul Rat.inv Rat.sub Rat.ofScientific in
/-- C7 amended: the cache deduplicates identical keys only across batch
boundaries.  Two identical rows inside one batch of 10 cost two external
calls, while in an 11-row list whose first and last rows share a key the
last row lands in the second batch, is served from the cache, and the run
costs 10 calls for 11 rows. -/
theorem c7_cache_amended :
    (resolveComponentsWithAI failResolver [] [ambComp "X", ambComp "X"]).2.2 = 2 ∧
    (resolveComponentsWithAI failResolver []
      [ambComp "X", ambComp "A1", ambComp "A2", ambComp "A3", ambComp "A4", ambComp "A5",
       ambComp "A6", ambComp "A7", ambComp "A8", ambComp "A9", ambComp "X"]).2.2 = 10 ∧
    (resolveComponentsWithAI failResolver []
      [ambComp "X", ambComp "A1", ambComp "A2", ambComp "A3", ambComp "A4", ambComp "A5",
       ambComp "A6", ambComp "A7", ambComp "A8", ambComp "A9", ambComp "X"]).1.length = 11 := by
  decide

/-! ### C10 -/

unseal Rat.add Rat.mul Rat.inv Rat.sub Rat.ofScientific in
/-- C10: a sequence value parsing to 0 is falsy in both sort keys and maps to
the same sentinel 999 as a missing/unparsable sequence, so it sorts after the
other components of its group rather than first: in the deterministic sort
`parseFloat(".."): || 999` sends `"0"` and `""` to 999, in the enrichment sort
`(sekvens || 999)` sends `0` and `null` to 999, and the groups
`["0", "2", "1"]` and `[0, 2, 1]` both sort to `[1, 2, 0]`. -/
theorem c10_zero_sequence_sentinel :
    seqKeyD "0" = 999 ∧ seqKeyD "" = 999 ∧ seqKeyD "abc" = 999 ∧
    hKey (mkH (some 0) "") = 999 ∧ hKey (mkH none "") = 999 ∧
    sortRowsD [mkRow "a" "0", mkRow "b" "2", mkRow "c" "1"] =
      [mkRow "c" "1", mkRow "b" "2", mkRow "a" "0"] ∧
    sortH [mkH (some 0) "a", mkH (some 2) "b", mkH (some 1) "c"] =
      [mkH (some 1) "c", mkH (some 2) "b", mkH (some 0) "a"] := by
  decide

/-! ### C3 -/

unseal Rat.add Rat.mul Rat.inv Rat.sub Rat.ofScientific in
/-- C3 counterexample: a missing sequence is not treated as +infinity.  Its
sentinel is 999, so a component with parsable sequence 1000 sorts *after* a
component with a missing sequence, contradicting "after every component with
a parsable sequence, whatever its value". -/
theorem c3_sentinel_counterexample :
    sortRowsD [mkRow "a" "1000", mkRow "b" ""] = [mkRow "b" "", mkRow "a" "1000"] ∧
    seqKeyD "" = 999 ∧ seqKeyD "1000" = 1000 := by
  decide

unseal Rat.add Rat.mul Rat.inv Rat.sub Rat.ofScientific in
/-- C3 amended: within a finalized group the components are stably sorted
ascending by the key `parseFloat(sequence.replace(',', '.')) || 999`
(a permutation of the rows, sorted for that key), a missing/unparsable
sequence getting the sentinel 999 — it therefore sorts after every component
whose key is below 999, but not after keys of 999 and above; the claim's own
example `[3, 1, "", 2] → [1, 2, 3, ""]` does hold, and a parsable sequence
equal to the sentinel ties stably with a missing one. -/
theorem c3_sort_amended :
    (∀ rows : List NormalizedRow,
      (sortRowsD rows).Sorted rSeq ∧ (sortRowsD rows).Perm rows) ∧
    sortRowsD [mkRow "a" "3", mkRow "b" "1", mkRow "c" "", mkRow "d" "2"] =
      [mkRow "b" "1", mkRow "d" "2", mkRow "a" "3", mkRow "c" ""] ∧
    seqKeyD "" = 999 ∧
    sortRowsD [mkRow "a" "999", mkRow "b" ""] = [mkRow "a" "999", mkRow "b" ""] := by
  refine ⟨fun rows => ⟨List.sorted_insertionSort rSeq rows, List.perm_insertionSort rSeq rows⟩,
    by decide, by decide, by decide⟩

/-! ### C1 -/

/-- C1 counterexample: manufacturer inheritance does not carry forward the
nearest preceding non-empty manufacturer.  In the sorted group
`[seq 1 ↦ "", seq 2 ↦ "X", seq 3 ↦ ""]` the claim assigns `"X"` to the third
component; the code inspects only the *first* component, finds its
manufacturer empty, and changes nothing — the group comes back unaltered with
the third manufacturer still empty. -/
theorem c1_first_only_counterexample :
    enrichGroup [mkH (some 1) "", mkH (some 2) "X", mkH (some 3) ""] =
      [mkH (some 1) "", mkH (some 2) "X", mkH (some 3) ""] ∧
    (enrichGroup [mkH (some 1) "", mkH (some 2) "X", mkH (some 3) ""]).map
      (fun k => k.leverandor) = ["", "X", ""] := by
  decide

/-- C1 amended: inheritance runs once over the sorted group but copies only
the *first* component's manufacturer.  When the first (sorted) component has a
non-empty manufacturer, every later component with an empty manufacturer
receives exactly that value and is marked inherited, while later components
with their own manufacturer are untouched and never propagate it; when the
first component's manufacturer is empty, the sorted group is returned
unchanged.  In particular the claim's special case — first component with a
manufacturer, all later ones without — still ends with every component
carrying the first one's manufacturer. -/
theorem c1_inheritance_from_first (ks : List HComp) (first : HComp) (rest : List HComp)
    (hsort : sortH ks = first :: rest) :
    (enrichGroup ks).length = ks.length ∧
    (enrichGroup ks).head? = some first ∧
    (first.leverandor = "" → enrichGroup ks = first :: rest) ∧
    (first.leverandor ≠ "" → ∀ i k, rest[i]? = some k →
      (k.leverandor = "" → (enrichGroup ks)[i + 1]? =
        some { k with leverandor := first.leverandor, leverandor_inherited := true }) ∧
      (k.leverandor ≠ "" → (enrichGroup ks)[i + 1]? = some k)) := by
  have hlen : (sortH ks).length = ks.length := List.length_insertionSort rH ks
  have henr : enrichGroup ks =
      if first.leverandor ≠ "" then
        first :: rest.map (fun k =>
          if k.leverandor = "" then
            { k with leverandor := first.leverandor, leverandor_inherited := true }
          else k)
      else first :: rest := by
    unfold enrichGroup
    rw [hsort]
  by_cases hfm : first.leverandor = ""
  · rw [henr, if_neg (by simpa using hfm)]
    refine ⟨?_, rfl, fun _ => rfl, fun h => absurd hfm h⟩
    rw [← hsort, hlen]
  · rw [henr, if_pos hfm]
    refine ⟨?_, rfl, fun h => absurd h hfm, ?_⟩
    · rw [← hlen, hsort]
      simp
    · intro _ i k hk
      constructor
      · intro hkl
        rw [List.getElem?_cons_succ, List.getElem?_map, hk]
        simp [hkl]
      · intro hkl
        rw [List.getElem?_cons_succ, List.getElem?_map, hk]
        simp [hkl]

/-- C1 witness: the amended theorem applied to the spec's own inheritance
example — first component `"AQS TOR"`, the two later ones empty — makes both
later components inherit `"AQS TOR"`. -/
theorem c1_inheritance_from_first_witness :
    (enrichGroup [mkH (some 1) "AQS TOR", mkH (some 2) "", mkH (some 3) ""])[1]? =
      some { mkH (some 2) "" with leverandor := "AQS TOR", leverandor_inherited := true } ∧
    (enrichGroup [mkH (some 1) "AQS TOR", mkH (some 2) "", mkH (some 3) ""])[2]? =
      some { mkH (some 3) "" with leverandor := "AQS TOR", leverandor_inherited := true } ∧
    (enrichGroup [mkH (some 1) "AQS TOR", mkH (some 2) "", mkH (some 3) ""]).head? =
      some (mkH (some 1) "AQS TOR") := by
  have h := c1_inheritance_from_first
    [mkH (some 1) "AQS TOR", mkH (some 2) "", mkH (some 3) ""]
    (mkH (some 1) "AQS TOR") [mkH (some 2) "", mkH (some 3) ""] (by decide)
  have h4 := h.2.2.2 (by decide)
  exact ⟨(h4 0 (mkH (some 2) "") rfl).1 rfl, (h4 1 (mkH (some 3) "") rfl).1 rfl, h.2.1⟩

/-! ### C9 -/

/-- C9: manufacturer enrichment is frame-preserving.  Relative to the sorted
group, the output has the same length; every slot keeps its sequence, type,
description, specifications, tracking number, date, quantity, position and
confidence; a component whose manufacturer is already non-empty is returned
completely unchanged; and the first (sorted) component is never modified. -/
theorem c9_enrich_frame (ks : List HComp) :
    (enrichGroup ks).length = (sortH ks).length ∧
    ∀ i k kOut, (sortH ks)[i]? = some k → (enrichGroup ks)[i]? = some kOut →
      kOut.posisjon = k.posisjon ∧ kOut.sekvens = k.sekvens ∧ kOut.type = k.type ∧
      kOut.type_original = k.type_original ∧ kOut.beskrivelse = k.beskrivelse ∧
      kOut.mengde = k.mengde ∧ kOut.spesifikasjoner = k.spesifikasjoner ∧
      kOut.sporingsnummer = k.sporingsnummer ∧ kOut.montert_dato = k.montert_dato ∧
      kOut.confidence = k.confidence ∧
      (k.leverandor ≠ "" → kOut = k) ∧ (i = 0 → kOut = k) := by
  rcases hs : sortH ks with _ | ⟨first, rest⟩
  · constructor
    · unfold enrichGroup
      rw [hs]
    · intro i k kOut hk
      rw [List.getElem?_nil] at hk
      exact absurd hk (by simp)
  · have henr : enrichGroup ks =
        if first.leverandor ≠ "" then
          first :: rest.map (fun k =>
            if k.leverandor = "" then
              { k with leverandor := first.leverandor, leverandor_inherited := true }
            else k)
        else first :: rest := by
      unfold enrichGroup
      rw [hs]
    by_cases hfm : first.leverandor = ""
    · rw [henr, if_neg (by simpa using hfm)]
      exact ⟨rfl, fun i k kOut hk hkOut => by
        rw [hk] at hkOut
        cases hkOut
        exact ⟨rfl, rfl, rfl, rfl, rfl, rfl, rfl, rfl, rfl, rfl, fun _ => rfl, fun _ => rfl⟩⟩
    · rw [henr, if_pos hfm]
      constructor
      · simp
      · intro i k kOut hk hkOut
        cases i with
        | zero =>
          rw [List.getElem?_cons_zero] at hk hkOut
          cases hk
          cases hkOut
          exact ⟨rfl, rfl, rfl, rfl, rfl, rfl, rfl, rfl, rfl, rfl, fun _ => rfl, fun _ => rfl⟩
        | succ n =>
          rw [List.getElem?_cons_succ] at hk hkOut
          rw [List.getElem?_map, hk, Option.map_some'] at hkOut
          by_cases hkl : k.leverandor = ""
          · rw [if_pos hkl] at hkOut
            injection hkOut with hout
            subst hout
            exact ⟨rfl, rfl, rfl, rfl, rfl, rfl, rfl, rfl, rfl, rfl,
              fun h => absurd hkl h, fun h => absurd h (Nat.succ_ne_zero n)⟩
          · rw [if_neg hkl] at hkOut
            injection hkOut with hout
            subst hout
            exact ⟨rfl, rfl, rfl, rfl, rfl, rfl, rfl, rfl, rfl, rfl,
              fun _ => rfl, fun _ => rfl⟩

/-- C9 witness: on the group `[seq 1 ↦ "A", seq 2 ↦ ""]` the second output
component keeps its sequence and tracking fields even though its manufacturer
was filled in. -/
theorem c9_enrich_frame_witness :
    (enrichGroup [mkH (some 1) "A", mkH (some 2) ""]).length = 2 ∧
    ({ mkH (some 2) "" with leverandor := "A", leverandor_inherited := true } : HComp).sekvens =
      (mkH (some 2) "").sekvens := by
  have h := c9_enrich_frame [mkH (some 1) "A", mkH (some 2) ""]
  have h2 := h.2 1 (mkH (some 2) "")
    { mkH (some 2) "" with leverandor := "A", leverandor_inherited := true }
    (by decide) (by decide)
  exact ⟨by rw [h.1]; decide, h2.2.1⟩

/-! ### C8: helper lemmas about the resolver stage -/

theorem jsOr_empty_right (a : String) : jsOr a "" = a := by
  unfold jsOr
  split
  · simp_all
  · rfl

theorem jsOr_self (a : String) : jsOr a a = a := by
  unfold jsOr
  split <;> rfl

theorem qOr_orZero (x : Option ℚ) : qOr (orZero x) x = x := by
  rcases x with _ | q
  · rfl
  · by_cases h : q = 0 <;> simp [orZero, qOr, h]

/-- With an always-failing resolver every cache miss computes the conservative
fallback. -/
theorem interpretOne_fail (resolver : String → AiOutcome)
    (hfail : ∀ k, resolver k = AiOutcome.throws ∨ resolver k = AiOutcome.unparsable)
    (c : Prepared) : interpretOne resolver c = aiFallback c := by
  unfold interpretOne
  rcases hfail (aiKey c) with h | h <;> rw [h]

theorem updAt_length (l : List Resolved) (i : Nat) (r : AiResult) :
    (updAt l i r).length = l.length := by
  induction l generalizing i with
  | nil => rfl
  | cons a as ih =>
    cases i with
    | zero => rfl
    | succ n => simpa [updAt] using ih n

theorem getElem?_updAt (l : List Resolved) (i j : Nat) (r : AiResult) :
    (updAt l i r)[j]? =
      if j = i then (l[j]?).map (fun o => applyRes o r) else l[j]? := by
  induction l generalizing i j with
  | nil =>
    simp only [updAt, List.getElem?_nil]
    split <;> rfl
  | cons a as ih =>
    cases i with
    | zero =>
      cases j with
      | zero => simp [updAt]
      | succ n => simp [updAt]
    | succ m =>
      cases j with
      | zero => simp [updAt]
      | succ n =>
        simp only [updAt, List.getElem?_cons_succ, ih m n, Nat.succ_eq_add_one]
        split
        · next h => rw [if_pos (by omega)]
        · next h => rw [if_neg (by omega)]

/-- The answer one batch read uses for a payload: the cached value if the key
was cached at dispatch, otherwise the freshly computed one. -/
def readRes (resolver : String → AiOutcome) (cache : Cache) (c : Prepared) : AiResult :=
  match lookupCache cache (aiKey c) with
  | some r => r
  | none => interpretOne resolver c

/-- Every cache entry is a fallback record produced for some component of the
run, keyed by that component. -/
def cacheGood (ps : List Prepared) (cache : Cache) : Prop :=
  ∀ e ∈ cache, ∃ c', c' ∈ ps ∧ e.1 = aiKey c' ∧ e.2 = aiFallback c'

theorem mem_cacheSet (cache : Cache) (k : String) (v : AiResult) (e : String × AiResult) :
    e ∈ cacheSet cache k v → e = (k, v) ∨ e ∈ cache := by
  induction cache with
  | nil =>
    intro he
    rcases List.mem_singleton.mp he with rfl
    exact Or.inl rfl
  | cons e0 rest ih =>
    intro he
    simp only [cacheSet] at he
    split at he
    · rcases List.mem_cons.mp he with rfl | hmem
      · exact Or.inl rfl
      · exact Or.inr (List.mem_cons_of_mem e0 hmem)
    · rcases List.mem_cons.mp he with rfl | hmem
      · exact Or.inr (List.mem_cons_self e rest)
      · rcases ih hmem with h | h
        · exact Or.inl h
        · exact Or.inr (List.mem_cons_of_mem e0 h)

theorem cacheSet_good (ps : List Prepared) (cache : Cache) (c : Prepared)
    (hg : cacheGood ps cache) (hc : c ∈ ps) :
    cacheGood ps (cacheSet cache (aiKey c) (aiFallback c)) := by
  intro e he
  rcases mem_cacheSet cache (aiKey c) (aiFallback c) e he with rfl | hmem
  · exact ⟨c, hc, rfl, rfl⟩
  · exact hg e hmem

theorem lookupCache_mem (cache : Cache) (k : String) (r : AiResult) :
    lookupCache cache k = some r → (k, r) ∈ cache := by
  induction cache with
  | nil =>
    intro hl
    simp [lookupCache] at hl
  | cons e rest ih =>
    intro hl
    simp only [lookupCache] at hl
    split at hl
    · next heq =>
      rcases Option.some_injective _ hl with rfl
      have he : e = (k, e.2) := by
        rw [← heq]
      rw [← he]
      exact List.mem_cons_self e rest
    · exact List.mem_cons_of_mem e (ih hl)

theorem lookupCache_good (ps : List Prepared) (cache : Cache) (k : String) (r : AiResult)
    (hg : cacheGood ps cache) (hl : lookupCache cache k = some r) :
    ∃ c', c' ∈ ps ∧ k = aiKey c' ∧ r = aiFallback c' := by
  rcases hg (k, r) (lookupCache_mem cache k r hl) with ⟨c', hc', hk, hr⟩
  exact ⟨c', hc', hk, hr⟩

theorem readRes_fallback (resolver : String → AiOutcome) (ps : List Prepared) (cache : Cache)
    (c : Prepared)
    (hfail : ∀ k, resolver k = AiOutcome.throws ∨ resolver k = AiOutcome.unparsable)
    (hg : cacheGood ps cache) (hc : c ∈ ps) :
    ∃ c', c' ∈ ps ∧ aiKey c' = aiKey c ∧ readRes resolver cache c = aiFallback c' := by
  unfold readRes
  rcases hl : lookupCache cache (aiKey c) with _ | r
  · exact ⟨c, hc, rfl, interpretOne_fail resolver hfail c⟩
  · rcases lookupCache_good ps cache (aiKey c) r hg hl with ⟨c', hc', hk, hr⟩
    exact ⟨c', hc', hk.symm, hr⟩

theorem mem_processChunk (resolver : String → AiOutcome) (cache : Cache)
    (chunk : List (Nat × Prepared)) (x : ChunkRead)
    (hx : x ∈ processChunk resolver cache chunk) :
    ∃ ic ∈ chunk, x.idx = ic.1 ∧ x.payload = ic.2 ∧
      (x.miss = true → x.res = interpretOne resolver ic.2) := by
  rcases List.mem_map.mp hx with ⟨ic, hic, heq⟩
  subst heq
  refine ⟨ic, hic, ?_⟩
  cases hl : lookupCache cache (aiKey ic.2) <;> simp [hl]

theorem foldl_cacheSet_good (ps : List Prepared) (reads : List ChunkRead) :
    ∀ cc : Cache, cacheGood ps cc →
    (∀ x ∈ reads, x.miss = true → x.res = aiFallback x.payload ∧ x.payload ∈ ps) →
    cacheGood ps (chunkCache cc reads) := by
  induction reads with
  | nil => exact fun cc hg _ => hg
  | cons x rest ih =>
    intro cc hg hx
    unfold chunkCache
    simp only [List.foldl_cons]
    have hstep : cacheGood ps (if x.miss then cacheSet cc (aiKey x.payload) x.res else cc) := by
      cases hm : x.miss
      · simpa using hg
      · rcases hx x (List.mem_cons_self x rest) hm with ⟨hres, hpay⟩
        simpa [hres] using cacheSet_good ps cc x.payload hg hpay
    exact ih _ hstep (fun y hy => hx y (List.mem_cons_of_mem x hy))

theorem processChunk_cache_good (resolver : String → AiOutcome) (ps : List Prepared)
    (cache : Cache) (chunk : List (Nat × Prepared))
    (hfail : ∀ k, resolver k = AiOutcome.throws ∨ resolver k = AiOutcome.unparsable)
    (hg : cacheGood ps cache) (hpay : ∀ ic ∈ chunk, ic.2 ∈ ps) :
    cacheGood ps (chunkCache cache (processChunk resolver cache chunk)) := by
  refine foldl_cacheSet_good ps _ cache hg ?_
  intro x hx hm
  rcases mem_processChunk resolver cache chunk x hx with ⟨ic, hic, _, hpayx, hres⟩
  rw [hres hm, hpayx, interpretOne_fail resolver hfail]
  exact ⟨rfl, hpayx ▸ hpay ic hic⟩

theorem processChunk_writes (resolver : String → AiOutcome) (cache : Cache) :
    ∀ (chunk : List (Nat × Prepared)) (out : List Resolved),
    (chunk.map Prod.fst).Nodup →
    ((processChunk resolver cache chunk).foldl (fun o x => updAt o x.idx x.res) out).length
        = out.length ∧
    (∀ j, j ∉ chunk.map Prod.fst →
      ((processChunk resolver cache chunk).foldl (fun o x => updAt o x.idx x.res) out)[j]?
        = out[j]?) ∧
    (∀ ic ∈ chunk,
      ((processChunk resolver cache chunk).foldl (fun o x => updAt o x.idx x.res) out)[ic.1]?
        = (out[ic.1]?).map (fun o => applyRes o (readRes resolver cache ic.2))) := by
  intro chunk
  induction chunk with
  | nil =>
    intro out _
    exact ⟨rfl, fun j _ => rfl, by simp⟩
  | cons ic0 rest ih =>
    intro out hnd
    have hnd' : (rest.map Prod.fst).Nodup := (List.nodup_cons.mp hnd).2
    have hni : ic0.1 ∉ rest.map Prod.fst := (List.nodup_cons.mp hnd).1
    have hstep : processChunk resolver cache (ic0 :: rest) =
        (⟨ic0.1, readRes resolver cache ic0.2,
          (lookupCache cache (aiKey ic0.2)).isNone, ic0.2⟩ : ChunkRead)
          :: processChunk resolver cache rest := by
      unfold processChunk readRes
      cases hl : lookupCache cache (aiKey ic0.2) <;> simp [hl]
    rw [hstep]
    simp only [List.foldl_cons]
    rcases ih (updAt out ic0.1 (readRes resolver cache ic0.2)) hnd' with ⟨ihlen, ihnotin, ihmem⟩
    refine ⟨by rw [ihlen, updAt_length], ?_, ?_⟩
    · intro j hj
      have hj1 : j ≠ ic0.1 := by
        intro h
        exact hj (h ▸ List.mem_cons_self _ _)
      have hj2 : j ∉ rest.map Prod.fst := fun h => hj (List.mem_cons_of_mem _ h)
      rw [ihnotin j hj2, getElem?_updAt, if_neg hj1]
    · intro ic hic
      rcases List.mem_cons.mp hic with rfl | hic'
      · rw [ihnotin ic.1 hni, getElem?_updAt, if_pos rfl]
      · have hne : ic.1 ≠ ic0.1 := by
          intro h
          exact hni (h ▸ List.mem_map_of_mem Prod.fst hic')
        rw [ihmem ic hic', getElem?_updAt, if_neg hne]

theorem chunkList_flatten {α : Type} (l : List (Nat × α)) : (chunkList l).flatten = l := by
  induction l using chunkList.induct with
  | case1 => rfl
  | case2 a1 a2 a3 a4 a5 a6 a7 a8 a9 a10 rest ih => simp [chunkList, ih]
  | case3 l h1 h2 => simp [chunkList]

theorem enumFrom_mem_le {α : Type} :
    ∀ (l : List α) (n : Nat) (x : Nat × α), x ∈ enumFrom n l → n ≤ x.1 := by
  intro l
  induction l with
  | nil =>
    intro n x hx
    simp [enumFrom] at hx
  | cons a as ih =>
    intro n x hx
    rcases List.mem_cons.mp hx with rfl | hx'
    · exact Nat.le_refl n
    · exact Nat.le_of_succ_le (ih (n + 1) x hx')

theorem enumFrom_pairwise_lt {α : Type} :
    ∀ (l : List α) (n : Nat), (enumFrom n l).Pairwise (fun a b => a.1 < b.1) := by
  intro l
  induction l with
  | nil => exact fun n => List.Pairwise.nil
  | cons a as ih =>
    intro n
    exact List.Pairwise.cons (fun x hx => enumFrom_mem_le as (n + 1) x hx) (ih (n + 1))

theorem enumFrom_mem_getElem? {α : Type} :
    ∀ (l : List α) (n : Nat) (x : Nat × α), x ∈ enumFrom n l →
      n ≤ x.1 ∧ l[x.1 - n]? = some x.2 := by
  intro l
  induction l with
  | nil =>
    intro n x hx
    simp [enumFrom] at hx
  | cons a as ih =>
    intro n x hx
    rcases List.mem_cons.mp hx with rfl | hx'
    · exact ⟨Nat.le_refl n, by simp⟩
    · rcases ih (n + 1) x hx' with ⟨hle, hget⟩
      refine ⟨Nat.le_of_succ_le hle, ?_⟩
      have hidx : x.1 - n = (x.1 - (n + 1)) + 1 := by omega
      rw [hidx, List.getElem?_cons_succ]
      exact hget

theorem getElem?_mem_enumFrom {α : Type} :
    ∀ (l : List α) (n i : Nat) (c : α), l[i]? = some c → (n + i, c) ∈ enumFrom n l := by
  intro l
  induction l with
  | nil =>
    intro n i c h
    simp at h
  | cons a as ih =>
    intro n i c h
    cases i with
    | zero =>
      rw [List.getElem?_cons_zero] at h
      rcases Option.some_injective _ h with rfl
      simp only [enumFrom, Nat.add_zero]
      exact List.mem_cons_self _ _
    | succ m =>
      rw [List.getElem?_cons_succ] at h
      have := ih (n + 1) m c h
      have hidx : n + (m + 1) = (n + 1) + m := by omega
      rw [hidx]
      exact List.mem_cons_of_mem _ this

/-- Characterization of the batch loop under an always-failing resolver: the
output keeps its length, untouched indices keep their records, and every
dispatched index ends with its record merged with a fallback computed for a
same-keyed component of the run. -/
theorem runChunks_char (resolver : String → AiOutcome) (ps : List Prepared)
    (hfail : ∀ k, resolver k = AiOutcome.throws ∨ resolver k = AiOutcome.unparsable) :
    ∀ (chunks : List (List (Nat × Prepared))) (out : List Resolved) (cache : Cache) (n : Nat),
    (∀ ch ∈ chunks, ∀ ic ∈ ch, ic.2 ∈ ps) →
    ((chunks.map (fun ch => ch.map Prod.fst)).flatten).Nodup →
    cacheGood ps cache →
    (runChunks resolver chunks (out, cache, n)).1.length = out.length ∧
    (∀ j, (∀ ch ∈ chunks, j ∉ ch.map Prod.fst) →
      (runChunks resolver chunks (out, cache, n)).1[j]? = out[j]?) ∧
    (∀ ch ∈ chunks, ∀ ic ∈ ch, ∃ c', c' ∈ ps ∧ aiKey c' = aiKey ic.2 ∧
      (runChunks resolver chunks (out, cache, n)).1[ic.1]? =
        (out[ic.1]?).map (fun o => applyRes o (aiFallback c'))) := by
  intro chunks
  induction chunks with
  | nil =>
    intro out cache n _ _ _
    exact ⟨rfl, fun j _ => rfl, by simp⟩
  | cons ch rest ih =>
    intro out cache n hpay hnd hg
    have hrun : runChunks resolver (ch :: rest) (out, cache, n) =
        runChunks resolver rest
          ((processChunk resolver cache ch).foldl (fun o x => updAt o x.idx x.res) out,
           chunkCache cache (processChunk resolver cache ch),
           n + chunkCalls (processChunk resolver cache ch)) := rfl
    rw [List.map_cons, List.flatten_cons] at hnd
    obtain ⟨hndch, hndrest, hdisj⟩ := List.nodup_append.mp hnd
    have hwr := processChunk_writes resolver cache ch out hndch
    have hg1 : cacheGood ps (chunkCache cache (processChunk resolver cache ch)) :=
      processChunk_cache_good resolver ps cache ch hfail hg
        (hpay ch (List.mem_cons_self ch rest))
    have hpay' : ∀ c ∈ rest, ∀ ic ∈ c, ic.2 ∈ ps :=
      fun c hc => hpay c (List.mem_cons_of_mem ch hc)
    rcases ih ((processChunk resolver cache ch).foldl (fun o x => updAt o x.idx x.res) out)
        (chunkCache cache (processChunk resolver cache ch))
        (n + chunkCalls (processChunk resolver cache ch)) hpay' hndrest hg1 with
      ⟨ihlen, ihnotin, ihmem⟩
    refine ⟨?_, ?_, ?_⟩
    · rw [hrun]
      exact ihlen.trans hwr.1
    · intro j hj
      rw [hrun, ihnotin j (fun c hc => hj c (List.mem_cons_of_mem ch hc))]
      exact hwr.2.1 j (hj ch (List.mem_cons_self ch rest))
    · intro ch' hch' ic hic
      rcases List.mem_cons.mp hch' with rfl | hch''
      · have hic1 : ic.1 ∈ ch'.map Prod.fst := List.mem_map_of_mem Prod.fst hic
        have hnrest : ∀ c ∈ rest, ic.1 ∉ c.map Prod.fst := by
          intro c hc hmem
          exact hdisj hic1
            (List.mem_flatten.mpr ⟨c.map Prod.fst, List.mem_map_of_mem _ hc, hmem⟩)
        rcases readRes_fallback resolver ps cache ic.2 hfail hg
            (hpay ch' (List.mem_cons_self ch' rest) ic hic) with ⟨c', hc', hkey, hrr⟩
        refine ⟨c', hc', hkey, ?_⟩
        rw [hrun, ihnotin ic.1 hnrest, hwr.2.2 ic hic, hrr]
      · have hic1 : ic.1 ∈ (rest.map (fun c => c.map Prod.fst)).flatten :=
          List.mem_flatten.mpr
            ⟨ch'.map Prod.fst, List.mem_map_of_mem _ hch'', List.mem_map_of_mem Prod.fst hic⟩
        have hnotch : ic.1 ∉ ch.map Prod.fst := fun h => hdisj h hic1
        rcases ihmem ch' hch'' ic hic with ⟨c', hc', hkey, hfin⟩
        refine ⟨c', hc', hkey, ?_⟩
        rw [hrun, hfin, hwr.2.1 ic.1 hnotch]

/-- Components with equal content keys agree on the fields the key is built
from and on the fields those determine.  `prepareForAI` guarantees this for
every row: the key records `rawText|manufacturer|tracking|partNumber`, and
`componentType` and the specifications are functions of the raw text. -/
def sameKeyFields (c1 c2 : Prepared) : Prop :=
  c1.componentType = c2.componentType ∧ c1.specs = c2.specs ∧
  c1.manufacturer = c2.manufacturer ∧ c1.tracking = c2.tracking ∧
  c1.partNumber = c2.partNumber ∧ c1.rawText = c2.rawText

theorem jsOr_or_empty (a : String) : jsOr a (jsOr a "") = a := by
  rw [jsOr_empty_right, jsOr_self]

theorem applyRes_fallback_fields (c cp : Prepared) (hk : sameKeyFields cp c)
    (ht : c.componentType ≠ "") :
    (applyRes (toResolved c) (aiFallback cp)).tracking = c.tracking ∧
    (applyRes (toResolved c) (aiFallback cp)).partNumber = c.partNumber ∧
    (applyRes (toResolved c) (aiFallback cp)).specs = c.specs ∧
    (applyRes (toResolved c) (aiFallback cp)).componentType = c.componentType ∧
    jsOr (applyRes (toResolved c) (aiFallback cp)).cleanManufacturer
      (applyRes (toResolved c) (aiFallback cp)).manufacturer = c.manufacturer ∧
    (applyRes (toResolved c) (aiFallback cp)).rawText = c.rawText ∧
    (applyRes (toResolved c) (aiFallback cp)).rekkefolge = c.rekkefolge ∧
    (applyRes (toResolved c) (aiFallback cp)).antall = c.antall ∧
    (applyRes (toResolved c) (aiFallback cp)).montert_dato = c.montert_dato ∧
    (applyRes (toResolved c) (aiFallback cp)).confidence = some (1 / 2) := by
  obtain ⟨hct, hsp, hm, htr, hpn, hrt⟩ := hk
  have hctf : jsOr cp.componentType "ukjent" = c.componentType := by
    rw [hct]
    unfold jsOr
    rw [if_neg ht]
  refine ⟨?_, ?_, ?_, ?_, ?_, rfl, rfl, rfl, rfl, rfl⟩
  · show jsOr cp.tracking (jsOr c.tracking "") = c.tracking
    rw [htr, jsOr_or_empty]
  · show jsOr cp.partNumber (jsOr c.partNumber "") = c.partNumber
    rw [hpn, jsOr_or_empty]
  · show (⟨qOr (orZero cp.specs.diameter_mm) c.specs.diameter_mm,
          qOr (orZero cp.specs.length_m) c.specs.length_m,
          qOr (orZero cp.specs.weight_kg) c.specs.weight_kg,
          qOr (orZero cp.specs.capacity_t) c.specs.capacity_t⟩ : Specs) = c.specs
    rw [hsp]
    cases hcs : c.specs
    simp only [qOr_orZero]
  · show jsOr (jsOr cp.componentType "ukjent") c.componentType = c.componentType
    rw [hctf, jsOr_self]
  · show jsOr (jsOr cp.manufacturer (jsOr c.manufacturer "")) c.manufacturer = c.manufacturer
    rw [hm, jsOr_or_empty, jsOr_self]

/-- C8: with an external resolver that throws (or returns unparsable output)
on every call, the resolution stage still returns exactly one record per
input row, in input order; every record keeps the deterministic partial
fields (identifiers, specifications, manufacturer, raw text, sequence,
quantity, date, component type), every invoked row carries the fallback
confidence 0.5 (≤ 0.5), and — the stage being a total function — no
exception escapes it.  The hypotheses state that the components are genuine
`prepareForAI` outputs: their type tag is never the empty string, and
equal content keys only arise from rows whose key fields and key-determined
fields agree. -/
theorem c8_resolver_fallback (resolver : String → AiOutcome) (ps : List Prepared)
    (hfail : ∀ k, resolver k = AiOutcome.throws ∨ resolver k = AiOutcome.unparsable)
    (hkey : ∀ c1 ∈ ps, ∀ c2 ∈ ps, aiKey c1 = aiKey c2 → sameKeyFields c1 c2)
    (htype : ∀ c ∈ ps, c.componentType ≠ "") :
    (resolveComponentsWithAI resolver [] ps).1.length = ps.length ∧
    ∀ (i : Nat) (c : Prepared), ps[i]? = some c → ∃ o : Resolved,
      (resolveComponentsWithAI resolver [] ps).1[i]? = some o ∧
      o.tracking = c.tracking ∧ o.partNumber = c.partNumber ∧ o.specs = c.specs ∧
      o.componentType = c.componentType ∧
      jsOr o.cleanManufacturer o.manufacturer = c.manufacturer ∧
      o.rawText = c.rawText ∧ o.rekkefolge = c.rekkefolge ∧ o.antall = c.antall ∧
      o.montert_dato = c.montert_dato ∧
      (needsAi c = true → o.confidence = some (1 / 2)) ∧
      (needsAi c = false → o.confidence = none ∨ o.confidence = some 1) := by
  have hmemget : ∀ (i : Nat) (c : Prepared), ps[i]? = some c → (i, c) ∈ enumFrom 0 ps := by
    intro i c hc
    have := getElem?_mem_enumFrom ps 0 i c hc
    simpa using this
  by_cases hne : ((enumFrom 0 ps).filter (fun ic => needsAi ic.2)).isEmpty = true
  · have hres : resolveComponentsWithAI resolver [] ps =
        ((ps.map toResolved).map (fun o => { o with confidence := some 1 }), [], 0) := by
      simp only [resolveComponentsWithAI]
      rw [if_pos hne]
    have hnone : ∀ (i : Nat) (c : Prepared), ps[i]? = some c → needsAi c = false := by
      intro i c hc
      have hfe := List.filter_eq_nil_iff.mp (List.isEmpty_iff.mp hne)
      have := hfe (i, c) (hmemget i c hc)
      simpa using this
    rw [hres]
    constructor
    · simp
    · intro i c hc
      refine ⟨{ toResolved c with confidence := some 1 }, ?_, rfl, rfl, rfl, rfl, ?_, rfl,
        rfl, rfl, rfl, ?_, fun _ => Or.inr rfl⟩
      · rw [List.getElem?_map, List.getElem?_map, hc]
        rfl
      · show jsOr "" c.manufacturer = c.manufacturer
        rfl
      · intro h
        rw [hnone i c hc] at h
        cases h
  · have hres : resolveComponentsWithAI resolver [] ps =
        runChunks resolver (chunkList ((enumFrom 0 ps).filter (fun ic => needsAi ic.2)))
          (ps.map toResolved, [], 0) := by
      simp only [resolveComponentsWithAI]
      rw [if_neg hne]
    have hflat : (chunkList ((enumFrom 0 ps).filter (fun ic => needsAi ic.2))).flatten =
        (enumFrom 0 ps).filter (fun ic => needsAi ic.2) := chunkList_flatten _
    have hmemneeds : ∀ ic ∈ (enumFrom 0 ps).filter (fun ic => needsAi ic.2),
        ps[ic.1]? = some ic.2 ∧ needsAi ic.2 = true := by
      intro ic hic
      rcases List.mem_filter.mp hic with ⟨hmem, hp⟩
      have := (enumFrom_mem_getElem? ps 0 ic hmem).2
      simp only [Nat.sub_zero] at this
      exact ⟨this, hp⟩
    have hchmem : ∀ ch ∈ chunkList ((enumFrom 0 ps).filter (fun ic => needsAi ic.2)),
        ∀ ic ∈ ch, ps[ic.1]? = some ic.2 ∧ needsAi ic.2 = true := by
      intro ch hch ic hic
      exact hmemneeds ic (hflat ▸ List.mem_flatten.mpr ⟨ch, hch, hic⟩)
    have hpay : ∀ ch ∈ chunkList ((enumFrom 0 ps).filter (fun ic => needsAi ic.2)),
        ∀ ic ∈ ch, ic.2 ∈ ps := by
      intro ch hch ic hic
      exact List.getElem?_mem (hchmem ch hch ic hic).1
    have hndflat : (((chunkList ((enumFrom 0 ps).filter (fun ic => needsAi ic.2))).map
        (fun ch => ch.map Prod.fst)).flatten).Nodup := by
      rw [← List.map_flatten, hflat]
      have hpw : ((enumFrom 0 ps).filter (fun ic => needsAi ic.2)).Pairwise
          (fun a b => a.1 < b.1) := (enumFrom_pairwise_lt ps 0).filter _
      have hpwm : (((enumFrom 0 ps).filter (fun ic => needsAi ic.2)).map Prod.fst).Pairwise
          (· < ·) := hpw.map Prod.fst (fun a b h => h)
      exact hpwm.imp Nat.ne_of_lt
    have hgood : cacheGood ps ([] : Cache) := by
      intro e he
      simp at he
    rcases runChunks_char resolver ps hfail
        (chunkList ((enumFrom 0 ps).filter (fun ic => needsAi ic.2)))
        (ps.map toResolved) [] 0 hpay hndflat hgood with ⟨hlen, hnotin, hmem⟩
    rw [hres]
    constructor
    · rw [hlen]
      simp
    · intro i c hc
      by_cases hna : needsAi c = true
      · have hin : (i, c) ∈ (enumFrom 0 ps).filter (fun ic => needsAi ic.2) :=
          List.mem_filter.mpr ⟨hmemget i c hc, by simpa using hna⟩
        rcases List.mem_flatten.mp (hflat ▸ hin) with ⟨ch, hch, hic⟩
        rcases hmem ch hch (i, c) hic with ⟨c', hc', hkeq, hfin⟩
        have hout : (ps.map toResolved)[i]? = some (toResolved c) := by
          rw [List.getElem?_map, hc]
          rfl
        rw [hout] at hfin
        refine ⟨applyRes (toResolved c) (aiFallback c'), hfin, ?_⟩
        have hsk : sameKeyFields c' c := hkey c' hc' c (List.getElem?_mem hc) hkeq
        rcases applyRes_fallback_fields c c' hsk (htype c (List.getElem?_mem hc)) with
          ⟨h1, h2, h3, h4, h5, h6, h7, h8, h9, h10⟩
        exact ⟨h1, h2, h3, h4, h5, h6, h7, h8, h9, fun _ => h10, fun h => absurd hna (by simp [h])⟩
      · have hnin : ∀ ch ∈ chunkList ((enumFrom 0 ps).filter (fun ic => needsAi ic.2)),
            i ∉ ch.map Prod.fst := by
          intro ch hch hmemi
          rcases List.mem_map.mp hmemi with ⟨ic, hic, hfst⟩
          rcases hchmem ch hch ic hic with ⟨hget, hp⟩
          rw [hfst, hc] at hget
          rcases Option.some_injective _ hget with rfl
          exact hna hp
        have hout : (ps.map toResolved)[i]? = some (toResolved c) := by
          rw [List.getElem?_map, hc]
          rfl
        refine ⟨toResolved c, by rw [hnotin i hnin, hout], rfl, rfl, rfl, rfl, ?_, rfl, rfl,
          rfl, rfl, ?_, fun _ => Or.inl rfl⟩
        · show jsOr "" c.manufacturer = c.manufacturer
          rfl
        · intro h
          rw [h] at hna
          cases hna rfl

/-- C8 witness: the theorem applied to the singleton list holding one
unknown-typed component and the always-throwing resolver. -/
theorem c8_resolver_fallback_witness :
    failResolver "k" = AiOutcome.throws ∧
    (resolveComponentsWithAI failResolver [] [ambComp "X"]).1.length = 1 := by
  have h := c8_resolver_fallback failResolver [ambComp "X"]
    (fun _ => Or.inl rfl)
    (by
      intro c1 h1 c2 h2 _
      rcases List.mem_singleton.mp h1 with rfl
      rcases List.mem_singleton.mp h2 with rfl
      exact ⟨rfl, rfl, rfl, rfl, rfl, rfl⟩)
    (by
      intro c hcm
      rcases List.mem_singleton.mp hcm with rfl
      decide)
  exact ⟨rfl, h.1⟩
